import Mathlib

/-!
Verification development for the odin-ai PLDA / detection-metrics core.

Shallow embedding of the Python sources:
  * `odin/backend/metrics.py` : `LevenshteinDistance`, `LER`, `Cavg`
    (numpy path), `det_curve`.
  * `odin/ml/plda.py` : the `PLDA` estimator (state, `initialize`,
    `__getstate__`/`__setstate__`, `transform`, `predict_log_proba`,
    the prelude of `fit`, `maximization_plda`).

Machine floats are modelled by exact arithmetic (`ℚ`, and `ℝ` where the
source takes logarithms).  Python exceptions are modelled by `Except`.

The collaborators `VectorNormalizer` (odin/ml/scoring.py) and the random
generator are repository code that is not part of the analysed sources;
where a claim depends on them they are passed as opaque function
parameters, constrained only by the spec-stated contract that the
normalizer preserves the shape of its input.
-/

namespace Odin

/-! ### `LevenshteinDistance` (odin/backend/metrics.py, lines 20-37)

The source keeps a single row `distances` of the dynamic program and
rebuilds it for every character of the longer string:

    if len(s1) > len(s2):
        s1, s2 = s2, s1
    distances = range(len(s1) + 1)
    for index2, char2 in enumerate(s2):
        newDistances = [index2 + 1]
        for index1, char1 in enumerate(s1):
            if char1 == char2:
                newDistances.append(distances[index1])
            else:
                newDistances.append(1 + min((distances[index1],
                                             distances[index1 + 1],
                                             newDistances[-1])))
        distances = newDistances
    return distances[-1]
-/

/-- Inner loop of `LevenshteinDistance`: walks `s1` together with the
previous row; `last` is `newDistances[-1]`, the entry appended just
before.  Produces the tail of the new row (everything after the leading
`index2 + 1`). -/
def levNewRow {α : Type} [DecidableEq α] (char2 : α) :
    List α → List ℕ → ℕ → List ℕ
  | c1 :: s1, d0 :: d1 :: rest, last =>
      let nd := if c1 = char2 then d0 else 1 + min d0 (min d1 last)
      nd :: levNewRow char2 s1 (d1 :: rest) nd
  | _, _, _ => []

/-- One iteration of the outer loop: from row `distances` to
`newDistances` for character `char2` at (0-based) position `index2`. -/
def levRow {α : Type} [DecidableEq α] (s1 : List α) (distances : List ℕ)
    (index2 : ℕ) (char2 : α) : List ℕ :=
  (index2 + 1) :: levNewRow char2 s1 distances (index2 + 1)

/-- `LevenshteinDistance(s1, s2)` from odin/backend/metrics.py. -/
def LevenshteinDistance {α : Type} [DecidableEq α] (s1 s2 : List α) : ℕ :=
  let p := if s1.length > s2.length then (s2, s1) else (s1, s2)
  let init := List.range (p.1.length + 1)
  let final := p.2.enum.foldl (fun dist (ic : ℕ × α) => levRow p.1 dist ic.1 ic.2) init
  final.getLastD 0

/-- `LER(y_true, y_pred, return_mean=True)` from odin/backend/metrics.py
(lines 40-68), on the list-of-sequences path (the dynamic wrapping of a
bare sequence into a singleton list is Python-type dispatch and is not
modelled): per pair, Levenshtein distance divided by the length of the
true sequence; the result is the arithmetic mean. -/
def LER {α : Type} [DecidableEq α] (y_true y_pred : List (List α)) : ℚ :=
  let results := (y_true.zip y_pred).map
    (fun yp => (LevenshteinDistance yp.1 yp.2 : ℚ) / yp.1.length)
  results.sum / results.length

/-- The classic edit distance, written from the spec's words
("classic edit-distance dynamic program"): match consumes no cost,
otherwise 1 plus the best of deletion, insertion, substitution. -/
def levClassic {α : Type} [DecidableEq α] : List α → List α → ℕ
  | [], ys => ys.length
  | x :: xs, [] => (x :: xs).length
  | x :: xs, y :: ys =>
      if x = y then levClassic xs ys
      else 1 + min (levClassic xs (y :: ys))
                   (min (levClassic (x :: xs) ys) (levClassic xs ys))
  termination_by xs ys => xs.length + ys.length

/-! ### `det_curve` (odin/backend/metrics.py, lines 612-717)

Only the branch where `true_scores` and `false_scores` are given is
embedded (the `y_true`/`y_score` preprocessing merely computes those two
arrays).  The source builds a `total × 2` array `scores` whose first
column holds the score and whose second column holds the class label
(0 for false, 1 for true), argsorts it stably by the label column, then
stably by the score column (`kind='mergsort'`, accepted by the numpy of
that era as mergesort, the stable kind), composes the two permutations,
and cumulates.  numpy's stable argsort of `keys` is the list of indices
sorted by the pair `(keys[i], i)`; `argsortStable` computes exactly
that ordering by insertion sort. -/

/-- Lexicographic order on (key, original index): the order realised by a
stable numpy argsort. -/
def argLe (a b : ℚ × ℕ) : Prop := a.1 < b.1 ∨ (a.1 = b.1 ∧ a.2 ≤ b.2)

instance : DecidableRel argLe := fun a b => by unfold argLe; infer_instance

/-- Insert into a sorted list of (key, index) pairs. -/
def insertPair (x : ℚ × ℕ) : List (ℚ × ℕ) → List (ℚ × ℕ)
  | [] => [x]
  | y :: ys => if argLe x y then x :: y :: ys else y :: insertPair x ys

/-- Insertion sort of (key, index) pairs by `argLe`. -/
def sortPairs : List (ℚ × ℕ) → List (ℚ × ℕ)
  | [] => []
  | x :: xs => insertPair x (sortPairs xs)

/-- `np.argsort(keys, kind='mergesort')`: indices sorted by
`(keys[i], i)`. -/
def argsortStable (keys : List ℚ) : List ℕ :=
  (sortPairs (keys.enum.map (fun p => (p.2, p.1)))).map Prod.snd

/-- `np.cumsum`: `(cumsum l)[k] = l[0] + ... + l[k]`. -/
def cumsum : List ℚ → List ℚ
  | [] => []
  | x :: xs => x :: (cumsum xs).map (fun t => x + t)

/-- Result record of `det_curve`. -/
structure DetCurve where
  Pmiss : List ℚ
  Pfa : List ℚ
  threshold : List ℚ
  deriving DecidableEq

/-- `det_curve(true_scores=..., false_scores=...)` from
odin/backend/metrics.py.  Note the last line of the source is
`threshold = scores[0, :]` — the first **row** of the sorted
`total × 2` array (a 2-element vector `[score, label]`), not the first
column. -/
def det_curve (true_scores false_scores : List ℚ) : DetCurve :=
  let nb_true := true_scores.length
  let nb_false := false_scores.length
  let scores : List (ℚ × ℚ) :=
    false_scores.map (fun s => (s, 0)) ++ true_scores.map (fun s => (s, 1))
  -- idx = np.argsort(scores[:, 1]); idx = idx[np.argsort(scores[:, 0])]
  let idx1 := argsortStable (scores.map Prod.snd)
  let idx := (argsortStable (scores.map Prod.fst)).map (fun k => idx1.getD k 0)
  let sorted := idx.map (fun k => scores.getD k (0, 0))
  -- sumtrue = np.cumsum(scores[:, 1]); sumfalse = nb_false - (arange(1, total+1) - sumtrue)
  let sumtrue := cumsum (sorted.map Prod.snd)
  let sumfalse := sumtrue.enum.map
    (fun p => (nb_false : ℚ) - (((p.1 : ℚ) + 1) - p.2))
  { Pmiss := sumtrue.map (fun t => t / (nb_true : ℚ)),
    Pfa := sumfalse.map (fun t => t / (nb_false : ℚ)),
    threshold := [(sorted.headD (0, 0)).1, (sorted.headD (0, 0)).2] }

/-! ### `Cavg` — numpy path (odin/backend/metrics.py, lines 368-397)

Scores are real numbers because the threshold takes logarithms.  The
loop accumulators `fa`, `fr` start as Python ints; for a cluster of
size `L`, the expression `fa / (L - 1)` divides by the Python int
`L - 1`, raising `ZeroDivisionError` when `L = 1`, and the final
`/ L` raises when `L = 0`; both are modelled by `Except.error`. -/

/-- `np.sum(y_true == lang_i)`. -/
def cavgN (y_true : List ℕ) (lang_i : ℕ) : ℕ := y_true.countP (fun v => v == lang_i)

/-- `np.sum(y_llr[y_true == lang_i, lang_j] < thresh)`: among rows of
class `lang_i`, how many have the `lang_j`-th llr strictly below the
threshold. -/
noncomputable def cavgCntBelow (y_llr : List (List ℝ)) (y_true : List ℕ)
    (lang_i lang_j : ℕ) (thresh : ℝ) : ℕ :=
  ((y_llr.zip y_true).filter (fun r => r.2 == lang_i)).countP
    (fun r => decide (r.1.getD lang_j 0 < thresh))

/-- `np.sum(y_llr[y_true == lang_i, lang_j] >= thresh)`. -/
noncomputable def cavgCntAtLeast (y_llr : List (List ℝ)) (y_true : List ℕ)
    (lang_i lang_j : ℕ) (thresh : ℝ) : ℕ :=
  ((y_llr.zip y_true).filter (fun r => r.2 == lang_i)).countP
    (fun r => decide (thresh ≤ r.1.getD lang_j 0))

/-- The two nested `for lang_i / for lang_j` loops of the numpy path,
accumulating `(fa, fr)` exactly as the source does. -/
noncomputable def cavgLoops (y_llr : List (List ℝ)) (y_true : List ℕ)
    (thresh : ℝ) (cluster : List ℕ) : ℝ × ℝ :=
  cluster.foldl
    (fun acc lang_i =>
      let N : ℝ := max (cavgN y_true lang_i : ℝ) 1
      cluster.foldl
        (fun acc2 lang_j =>
          if lang_i = lang_j then
            (acc2.1, acc2.2 + (cavgCntBelow y_llr y_true lang_i lang_i thresh : ℝ) / N)
          else
            (acc2.1 + (cavgCntAtLeast y_llr y_true lang_i lang_j thresh : ℝ) / N, acc2.2))
        acc)
    (0, 0)

/-- Cost of one cluster:
`100 * (Cmiss * Ptar * fr + Cfa * (1 - Ptar) * fa / (L - 1)) / L`. -/
noncomputable def cavgClusterCost (y_llr : List (List ℝ)) (y_true : List ℕ)
    (thresh Ptar Cfa Cmiss : ℝ) (cluster : List ℕ) : Except String ℝ :=
  let L := cluster.length
  let fafr := cavgLoops y_llr y_true thresh cluster
  if L = 1 ∨ L = 0 then Except.error "ZeroDivisionError: division by zero"
  else Except.ok
    (100 * (Cmiss * Ptar * fafr.2 + Cfa * (1 - Ptar) * fafr.1 / ((L : ℝ) - 1)) / (L : ℝ))

/-- `Cavg(y_llr, y_true, cluster_idx, Ptar, Cfa, Cmiss)` — numpy path,
`probability_input=False`, `cluster_idx` given.  Returns the per-cluster
cost vector and its mean. -/
noncomputable def Cavg_np (y_llr : List (List ℝ)) (y_true : List ℕ)
    (cluster_idx : List (List ℕ)) (Ptar Cfa Cmiss : ℝ) :
    Except String (List ℝ × ℝ) := do
  let thresh := Real.log (Cfa / Cmiss) - Real.log (Ptar / (1 - Ptar))
  let cluster_cost ← cluster_idx.mapM
    (cavgClusterCost y_llr y_true thresh Ptar Cfa Cmiss)
  return (cluster_cost, cluster_cost.sum / (cluster_cost.length : ℝ))

/-- The default `cluster_idx = [list(range(0, y_llr.shape[-1]))]` used
when none is passed. -/
def Cavg_default_clusters (ncols : ℕ) : List (List ℕ) := [List.range ncols]

/-- `Cavg` as the spec describes it (built from the claim's words, to be
compared with the embedding `Cavg_np`): threshold
`log(Cfa/Cmiss) − log(Ptar/(1−Ptar))`; per cluster of size `L`, the sum
over classes `i` of the miss rate and the sum over ordered pairs
`i ≠ j` of the false-alarm rates, each divided by the class-`i` sample
count floored to 1; cluster cost
`100·(Cmiss·Ptar·Σmiss + Cfa·(1−Ptar)·Σfa/(L−1))/L`; result is the
per-cluster cost vector and its arithmetic mean. -/
noncomputable def Cavg_spec (y_llr : List (List ℝ)) (y_true : List ℕ)
    (cluster_idx : List (List ℕ)) (Ptar Cfa Cmiss : ℝ) : List ℝ × ℝ :=
  let thresh := Real.log (Cfa / Cmiss) - Real.log (Ptar / (1 - Ptar))
  let costs := cluster_idx.map (fun cluster =>
    let L := cluster.length
    let missSum := (cluster.map (fun i =>
      (cavgCntBelow y_llr y_true i i thresh : ℝ) / max (cavgN y_true i : ℝ) 1)).sum
    let faSum := (cluster.map (fun i =>
      ((cluster.filter (fun j => j ≠ i)).map (fun j =>
        (cavgCntAtLeast y_llr y_true i j thresh : ℝ) / max (cavgN y_true i : ℝ) 1)).sum)).sum
    100 * (Cmiss * Ptar * missSum + Cfa * (1 - Ptar) * faSum / ((L : ℝ) - 1)) / (L : ℝ))
  (costs, costs.sum / (costs.length : ℝ))

/-! ### List-of-rows matrices for the PLDA estimator

`odin/ml/plda.py` works with numpy arrays whose dimensions are dynamic;
they are modelled as lists of row lists over `ℚ`.  `ncolsL` is
`shape[1]` (rows of an ndarray all share one length). -/

/-- Number of columns (`X.shape[1]`). -/
def ncolsL (A : List (List ℚ)) : ℕ := (A.headD []).length

/-- Dot product of two rows. -/
def dotL (u v : List ℚ) : ℚ := (List.zipWith (fun a b => a * b) u v).sum

/-- Column `j` of a matrix. -/
def colL (A : List (List ℚ)) (j : ℕ) : List ℚ := A.map (fun r => r.getD j 0)

/-- Matrix transpose. -/
def transposeL (A : List (List ℚ)) : List (List ℚ) :=
  (List.range (ncolsL A)).map (colL A)

/-- `np.dot` for 2-d arrays. -/
def matMulL (A B : List (List ℚ)) : List (List ℚ) :=
  A.map (fun row => (transposeL B).map (dotL row))

/-- Zero matrix `np.zeros((r, c))`. -/
def zerosM (r c : ℕ) : List (List ℚ) := List.replicate r (List.replicate c 0)

/-- Identity matrix `np.eye(n)`. -/
def eyeM (n : ℕ) : List (List ℚ) :=
  (List.range n).map (fun i => (List.range n).map (fun j => if i = j then 1 else 0))

/-- Elementwise matrix sum. -/
def addM (A B : List (List ℚ)) : List (List ℚ) :=
  List.zipWith (List.zipWith (fun a b => a + b)) A B

/-- Scalar multiple of a matrix. -/
def scaleM (c : ℚ) (A : List (List ℚ)) : List (List ℚ) :=
  A.map (List.map (fun a => c * a))

/-! ### The PLDA instance state (odin/ml/plda.py)

One record holds every attribute `__init__` creates plus the four cache
attributes created later by `_update_caches`/`fit` (absent attribute =
`none`, mirroring the `hasattr` tests of `is_fitted`).  The fields
appear in the order of the `__getstate__` tuple.

The collaborators stored on the instance are repository code outside
the analysed sources and are modelled from the spec:
  * `normalizer` — `VectorNormalizer.transform` (odin/ml/scoring.py);
    modelled from the spec: an opaque matrix-to-matrix map
    (centering → WCCN → unit-length), whose only contract used here is
    that it never alters the shape of its input;
  * `rand_state` — the seeded numpy generator; modelled from the spec
    as an opaque draw function `(rows, cols) ↦ matrix`;
  * `dtype_` — a numpy dtype tag; casts are identities over exact
    arithmetic, so it carries no information. -/

structure PLDAState where
  num_phi : ℕ
  num_iter : ℕ
  feat_dim : Option ℕ
  labels : Option (List ℕ)
  verbose_ : ℕ
  normalizer : List (List ℚ) → List (List ℚ)
  dtype_ : Unit
  rand_state : ℕ → ℕ → List (List ℚ)
  Sigma_ : Option (List (List ℚ))
  Phi_ : Option (List (List ℚ))
  Sb_ : Option (List (List ℚ))
  St_ : Option (List (List ℚ))
  Lambda_ : Option (List (List ℚ))
  Uk_ : Option (List (List ℚ))
  Q_hat_ : Option (List (List ℚ))
  X_model_ : Option (List (List ℚ))

/-- `is_fitted`: the four scoring-cache attributes all exist. -/
def PLDAState.is_fitted (p : PLDAState) : Bool :=
  p.Lambda_.isSome && p.Uk_.isSome && p.Q_hat_.isSome && p.X_model_.isSome

/-- `__getstate__`: refuses to pickle an unfitted model, otherwise
returns the ordered 16-field bundle (the full state). -/
def PLDAState.getstate (p : PLDAState) : Except String PLDAState :=
  if p.is_fitted = false then
    Except.error "RuntimeError: The PLDA have not been fitted, nothing to pickle!"
  else
    Except.ok p

/-- `__setstate__(states)`: positionally assigns all 16 fields of the
tuple to the instance.  The source performs no validation of any kind,
so no branch returns an error. -/
def PLDAState.setstate (_self : PLDAState) (states : PLDAState) :
    Except String PLDAState :=
  Except.ok
    { num_phi := states.num_phi
      num_iter := states.num_iter
      feat_dim := states.feat_dim
      labels := states.labels
      verbose_ := states.verbose_
      normalizer := states.normalizer
      dtype_ := states.dtype_
      rand_state := states.rand_state
      Sigma_ := states.Sigma_
      Phi_ := states.Phi_
      Sb_ := states.Sb_
      St_ := states.St_
      Lambda_ := states.Lambda_
      Uk_ := states.Uk_
      Q_hat_ := states.Q_hat_
      X_model_ := states.X_model_ }

/-- Consistency of a pickled bundle, written from the spec's words: the
stored `Phi` matrix has `feat_dim` rows of `num_phi` entries each. -/
def bundleConsistent (s : PLDAState) : Prop :=
  (s.Phi_.getD []).length = s.feat_dim.getD 0 ∧
  ∀ r ∈ s.Phi_.getD [], r.length = s.num_phi

instance (s : PLDAState) : Decidable (bundleConsistent s) := by
  unfold bundleConsistent; infer_instance

/-- `initialize(X, labels)` (odin/ml/plda.py, lines 128-164).  Errors
carry the state as mutated up to the raise, because the source assigns
`_feat_dim`/`_labels` before the dimension check.  On a repeated call
(`_feat_dim` already set) the `or` in
`if self.feat_dim is None or self._num_classes is None` no longer
short-circuits and reads `self._num_classes`, an attribute no code ever
assigns, so the call raises `AttributeError`. -/
def PLDAState.initialize (p : PLDAState) (X : List (List ℚ)) (labels : List ℕ) :
    Except (String × PLDAState) PLDAState :=
  let feat_dim := ncolsL X
  match p.feat_dim with
  | none =>
    let p1 : PLDAState :=
      { p with feat_dim := some feat_dim,
               labels := if p.labels = none then some labels else p.labels }
    if feat_dim ≤ p1.num_phi then
      Except.error ("RuntimeError: feat_dim must be greater than num_phi", p1)
    else
      let p2 : PLDAState :=
        { p1 with
          Sigma_ := some (addM (scaleM (1 / (feat_dim : ℚ)) (eyeM feat_dim))
                               (p.rand_state feat_dim feat_dim)),
          Phi_ := some (transposeL (p.normalizer (p.rand_state p.num_phi feat_dim))),
          Sb_ := some (zerosM feat_dim feat_dim),
          St_ := some (zerosM feat_dim feat_dim) }
      -- the two validations after the init block (trivially true on a
      -- first call with labels from np.unique, but kept faithfully)
      if p2.feat_dim ≠ some feat_dim then
        Except.error ("ValueError: Mismatch the input feature dimension", p2)
      else if (p2.labels.getD []).length ≠ labels.length then
        Except.error ("ValueError: Mismatch the number of output classes", p2)
      else Except.ok p2
  | some _ => Except.error ("AttributeError: _num_classes", p)

/-- `transform(X)` (lines 319-330): requires fitted, then projects the
normalized input through `Uk_`. -/
def PLDAState.transform (p : PLDAState) (X : List (List ℚ)) :
    Except String (List (List ℚ)) :=
  if p.is_fitted = false then
    Except.error "RuntimeError: This model has not been fitted!"
  else
    Except.ok (matMulL (p.normalizer X) (p.Uk_.getD []))

/-- `predict_log_proba(X, X_model=None)` (lines 335-374). -/
def PLDAState.predict_log_proba (p : PLDAState) (X : List (List ℚ))
    (X_model : Option (List (List ℚ))) : Except String (List (List ℚ)) :=
  if p.is_fitted = false then
    Except.error "RuntimeError: This model has not been fitted!"
  else
    let Uk := p.Uk_.getD []
    let Xm := match X_model with
      | none => p.X_model_.getD []
      | some M => matMulL (p.normalizer M) Uk
    if Xm.length ≠ (p.labels.getD []).length then
      Except.error "ValueError: model matrix classes mismatch with fitted classes"
    else
      let Xp := matMulL (p.normalizer X) Uk
      let Qh := p.Q_hat_.getD []
      let Lam := p.Lambda_.getD []
      -- score_h1 = sum(dot(Xm, Qh) * Xm, axis=1); score_h2 likewise for X
      let h1 := List.zipWith dotL (matMulL Xm Qh) Xm
      let h2 := List.zipWith dotL (matMulL Xp Qh) Xp
      let h1h2 := scaleM 2 (matMulL Xp (transposeL (matMulL Xm Lam)))
      -- scores = score_h1h2 + score_h1.T + score_h2 (numpy broadcasting)
      Except.ok (((h1h2.zip h2).map (fun rz =>
        (rz.1.zip h1).map (fun ab => ab.1 + ab.2 + rz.2))))

/-! ### The prelude of `fit` (odin/ml/plda.py, lines 200-229)

everything `fit` executes before the EM iteration loop: the sample-count
assert, `np.bincount(y)`, `np.unique(y)`, normalization, `initialize`,
the per-class sum matrix `F` (indexed by the raw label value, an
`IndexError` when a label reaches `F`'s row count), and `X^T X`.  An
error here means the EM loop is never entered. -/

/-- `np.bincount` for a vector of naturals: counts up to the maximum
value (length 0 for empty input). -/
def npBincount (y : List ℕ) : List ℕ :=
  if y = [] then [] else (List.range (y.foldl max 0 + 1)).map (fun v => y.count v)

/-- `np.unique` for a vector of naturals: the sorted distinct values. -/
def npUnique (y : List ℕ) : List ℕ :=
  (List.range (y.foldl max 0 + 1)).filter (fun v => y.contains v)

/-- `X[y == clz, :].sum(axis=0)`. -/
def classRowSum (X : List (List ℚ)) (y : List ℕ) (clz feat_dim : ℕ) : List ℚ :=
  ((X.zip y).filter (fun r => r.2 == clz)).foldl
    (fun acc r => List.zipWith (fun a b => a + b) acc r.1)
    (List.replicate feat_dim 0)

/-- The `for clz in np.unique(y): F[clz, :] = ...` loop over the zero
matrix `F` of shape `(num_classes, feat_dim)`; assigning row `clz` of a
matrix with fewer than `clz + 1` rows is an `IndexError`. -/
def buildF (num_classes feat_dim : ℕ) (X : List (List ℚ)) (y : List ℕ)
    (classes : List ℕ) : Except String (List (List ℚ)) :=
  classes.foldlM
    (fun F clz =>
      if clz < F.length then Except.ok (F.set clz (classRowSum X y clz feat_dim))
      else Except.error "IndexError: index is out of bounds for axis 0")
    (zerosM num_classes feat_dim)

/-- `fit(X, y)` up to the start of the EM loop; returns the state after
`initialize` together with `F`, `X_sqr` and `y_counts` — exactly the
data the EM iterations consume. -/
def PLDAState.fitPrelude (p : PLDAState) (X : List (List ℚ)) (y : List ℕ) :
    Except (String × PLDAState) (PLDAState × List (List ℚ) × List (List ℚ) × List ℕ) :=
  if X.length ≠ y.length then
    Except.error ("AssertionError: Number of samples mismatch in X and y", p)
  else
    let y_counts := npBincount y
    let classes := npUnique y
    let Xn := p.normalizer X
    match p.initialize Xn classes with
    | Except.error e => Except.error e
    | Except.ok p1 =>
      let num_classes := (p1.labels.getD []).length
      let feat_dim := p1.feat_dim.getD 0
      match buildF num_classes feat_dim Xn y classes with
      | Except.error msg => Except.error (msg, p1)
      | Except.ok F =>
        let X_sqr := matMulL (transposeL Xn) Xn
        Except.ok (p1, F, X_sqr, y_counts)

/-- A freshly constructed instance, as `__init__` leaves it
(`num_phi = 2`, everything optional unset); concrete test fixture. -/
def plda0 : PLDAState :=
  { num_phi := 2, num_iter := 12, feat_dim := none, labels := none,
    verbose_ := 0, normalizer := fun X => X, dtype_ := (),
    rand_state := fun _ _ => [], Sigma_ := none, Phi_ := none,
    Sb_ := none, St_ := none, Lambda_ := none, Uk_ := none,
    Q_hat_ := none, X_model_ := none }

/-- A concrete pickled bundle whose `Phi` has 3 rows of 2 entries while
its `feat_dim` field says 5 and its `num_phi` field says 4 — an
inconsistent bundle in the sense of the persistence contract. -/
def badBundle : PLDAState :=
  { num_phi := 4, num_iter := 12, feat_dim := some 5, labels := some [0, 1],
    verbose_ := 0, normalizer := fun X => X, dtype_ := (),
    rand_state := fun _ _ => [],
    Sigma_ := some [[1]], Phi_ := some [[1, 2], [3, 4], [5, 6]],
    Sb_ := some [[0]], St_ := some [[0]],
    Lambda_ := some [[1]], Uk_ := some [[1]], Q_hat_ := some [[1]],
    X_model_ := some [[1]] }

/-! ### `maximization_plda` (odin/ml/plda.py, lines 301-317)

The M-step works on fixed-shape dense matrices, embedded as Mathlib
matrices over `ℚ`:

    num_samples = X.shape[0]
    Ey_FT = np.dot(Ey.T, F)
    self.Phi_ = solve(Eyy.T, Ey_FT).T
    self.Sigma_ = 1. / num_samples * (X_sqr - np.dot(self.Phi_, Ey_FT))

`scipy.linalg.solve(A, B)` solves `A · Z = B` and raises `LinAlgError`
on an exactly singular `A`; `1. / num_samples` raises
`ZeroDivisionError` when `X` has no rows. -/

open Matrix

/-- `scipy.linalg.solve(A, B)` for invertible `A`: the unique `Z` with
`A · Z = B`, computed by the adjugate formula (defined arbitrarily as 0
when `A` is singular; `maximization_plda` guards that case). -/
def npSolve {k m : ℕ} (A : Matrix (Fin k) (Fin k) ℚ)
    (B : Matrix (Fin k) (Fin m) ℚ) : Matrix (Fin k) (Fin m) ℚ :=
  (A.det)⁻¹ • (A.adjugate * B)

/-- `maximization_plda(X, X_sqr, F, Ey, Eyy)`: returns the re-estimated
`(Phi_, Sigma_)` pair. -/
def maximization_plda {n d c p : ℕ} (X : Matrix (Fin n) (Fin d) ℚ)
    (X_sqr : Matrix (Fin d) (Fin d) ℚ) (F : Matrix (Fin c) (Fin d) ℚ)
    (Ey : Matrix (Fin c) (Fin p) ℚ) (Eyy : Matrix (Fin p) (Fin p) ℚ) :
    Except String (Matrix (Fin d) (Fin p) ℚ × Matrix (Fin d) (Fin d) ℚ) :=
  let Ey_FT := Eyᵀ * F
  if (Eyyᵀ).det = 0 then Except.error "LinAlgError: singular matrix"
  else if n = 0 then Except.error "ZeroDivisionError: division by zero"
  else
    let Phi := (npSolve Eyyᵀ Ey_FT)ᵀ
    Except.ok (Phi, ((n : ℚ))⁻¹ • (X_sqr - Phi * Ey_FT))

/-! ## Theorems -/

/-! ### Levenshtein: the rolling-row program computes the classic edit
distance -/

theorem levClassic_nil_right {α : Type} [DecidableEq α] (u : List α) :
    levClassic u [] = u.length := by
  cases u <;> simp [levClassic]

theorem levClassic_concat_concat {α : Type} [DecidableEq α] (x y : α) :
    ∀ (u v : List α),
      levClassic (u ++ [x]) (v ++ [y]) =
        if x = y then levClassic u v
        else 1 + min (levClassic u (v ++ [y]))
              (min (levClassic (u ++ [x]) v) (levClassic u v))
  | [], [] => by
    simp only [List.nil_append, levClassic, List.length_nil]
  | [], b :: bs => by
    have h1 := levClassic_concat_concat x y [] bs
    simp only [List.nil_append, List.cons_append, levClassic, List.length_nil,
      List.length_cons, List.length_append, List.length_singleton] at h1 ⊢
    split_ifs at h1 ⊢ <;> omega
  | a :: as, [] => by
    have h1 := levClassic_concat_concat x y as []
    simp only [List.nil_append, List.cons_append, levClassic, List.length_nil,
      List.length_cons, List.length_append, List.length_singleton,
      levClassic_nil_right] at h1 ⊢
    split_ifs at h1 ⊢ <;> omega
  | a :: as, b :: bs => by
    have h1 := levClassic_concat_concat x y as (b :: bs)
    have h2 := levClassic_concat_concat x y (a :: as) bs
    have h3 := levClassic_concat_concat x y as bs
    simp only [List.cons_append, levClassic] at h1 h2 h3 ⊢
    by_cases hxy : x = y <;> by_cases hab : a = b <;>
      simp only [hxy, hab, eq_self_iff_true, if_true, if_false] at h1 h2 h3 ⊢
    · omega
    · omega
    · omega
    · rw [h1, h2, h3]
      simp only [← min_add_add_left]
      ac_rfl
  termination_by u v => u.length + v.length

theorem levClassic_reverse_reverse {α : Type} [DecidableEq α] :
    ∀ (u v : List α), levClassic u.reverse v.reverse = levClassic u v
  | [], v => by
    simp [levClassic, levClassic_nil_right]
  | x :: xs, [] => by
    simp [levClassic_nil_right, levClassic]
  | x :: xs, y :: ys => by
    have h1 := levClassic_reverse_reverse xs (y :: ys)
    have h2 := levClassic_reverse_reverse (x :: xs) ys
    have h3 := levClassic_reverse_reverse xs ys
    simp only [List.reverse_cons] at h1 h2 h3 ⊢
    rw [levClassic_concat_concat]
    simp only [levClassic, h1, h2, h3]
  termination_by u v => u.length + v.length

theorem levNewRow_spec {α : Type} [DecidableEq α] (c : α) (t' : List α) :
    ∀ (u w : List α),
      levNewRow c u
        ((List.range (u.length + 1)).map
          (fun j => levClassic ((u.take j).reverse ++ w) t'))
        (levClassic w (c :: t'))
      = (List.range u.length).map
          (fun j => levClassic ((u.take (j + 1)).reverse ++ w) (c :: t'))
  | [], w => by
    simp [levNewRow]
  | a :: u', w => by
    have IH := levNewRow_spec c t' u' (a :: w)
    simp only [List.length_cons, List.range_succ_eq_map, List.map_map, List.map_cons,
      Function.comp, List.take_zero, List.take_succ_cons, List.reverse_nil,
      List.reverse_cons, List.nil_append, List.append_assoc, List.singleton_append] at IH ⊢
    have hrest : ((fun j => levClassic ((List.take j (a :: u')).reverse ++ w) t') ∘ Nat.succ ∘ Nat.succ)
        = ((fun j => levClassic ((List.take j u').reverse ++ a :: w) t') ∘ Nat.succ) := by
      funext j
      simp [List.take_succ_cons, List.reverse_cons, List.append_assoc]
    rw [hrest]
    simp only [levNewRow]
    have hnd : (if a = c then levClassic w t'
        else 1 + (levClassic w t' ⊓ (levClassic (a :: w) t' ⊓ levClassic w (c :: t'))))
        = levClassic (a :: w) (c :: t') := by
      simp only [levClassic]
      by_cases hac : a = c
      · simp [hac]
      · simp only [if_neg hac]
        ac_rfl
    rw [hnd, IH]
    rfl

theorem levClassic_comm {α : Type} [DecidableEq α] :
    ∀ (u v : List α), levClassic u v = levClassic v u
  | [], v => by
    simp [levClassic, levClassic_nil_right]
  | x :: xs, [] => by
    simp [levClassic_nil_right, levClassic]
  | x :: xs, y :: ys => by
    have h1 := levClassic_comm xs (y :: ys)
    have h2 := levClassic_comm (x :: xs) ys
    have h3 := levClassic_comm xs ys
    simp only [levClassic, h1, h2, h3]
    by_cases hxy : x = y
    · simp only [hxy, eq_self_iff_true, if_true]
    · rw [if_neg hxy, if_neg (fun h => hxy h.symm)]
      ac_rfl
  termination_by u v => u.length + v.length

theorem levRow_fold_spec {α : Type} [DecidableEq α] (s1 : List α) :
    ∀ (rest t : List α),
      (List.enumFrom t.length rest).foldl
        (fun dist ic => levRow s1 dist ic.1 ic.2)
        ((List.range (s1.length + 1)).map
          (fun i => levClassic ((s1.take i).reverse) t.reverse))
      = (List.range (s1.length + 1)).map
          (fun i => levClassic ((s1.take i).reverse) (t ++ rest).reverse)
  | [], t => by simp
  | c :: rest', t => by
    have hrow := levNewRow_spec c t.reverse s1 []
    simp only [List.append_nil] at hrow
    have hstep : levRow s1
        ((List.range (s1.length + 1)).map (fun i => levClassic ((s1.take i).reverse) t.reverse))
        t.length c
      = (List.range (s1.length + 1)).map
          (fun i => levClassic ((s1.take i).reverse) (t ++ [c]).reverse) := by
      have hlast : levClassic ([] : List α) (c :: t.reverse) = t.length + 1 := by
        simp [levClassic]
      rw [hlast] at hrow
      rw [levRow, hrow]
      simp only [List.reverse_append, List.reverse_cons, List.reverse_nil, List.nil_append,
        List.singleton_append, List.range_succ_eq_map, List.map_cons, List.map_map,
        List.take_zero, List.length_cons, List.length_reverse]
      rw [hlast]
      rfl
    rw [List.enumFrom, List.foldl_cons, hstep]
    have IH := levRow_fold_spec s1 rest' (t ++ [c])
    simp only [List.length_append, List.length_singleton, List.append_assoc,
      List.singleton_append] at IH
    exact IH


theorem LevenshteinDistance_eq_levClassic {α : Type} [DecidableEq α] (s1 s2 : List α) :
    LevenshteinDistance s1 s2 = levClassic s1 s2 := by
  have key : ∀ (u v : List α),
      ((v.enum.foldl (fun dist ic => levRow u dist ic.1 ic.2)
        (List.range (u.length + 1))).getLastD 0) = levClassic u v := by
    intro u v
    have h0 : (List.range (u.length + 1))
        = (List.range (u.length + 1)).map
            (fun i => levClassic ((u.take i).reverse) (([] : List α)).reverse) := by
      refine ((List.map_congr_left ?_).trans (List.map_id _)).symm
      intro i hi
      rw [List.mem_range] at hi
      simp only [List.reverse_nil, levClassic_nil_right, List.length_reverse, List.length_take,
        id_eq]
      omega
    have hfold := levRow_fold_spec u v []
    simp only [List.length_nil, List.nil_append] at hfold
    rw [h0]
    show ((List.enumFrom 0 v).foldl (fun dist ic => levRow u dist ic.1 ic.2) _).getLastD 0 = _
    rw [hfold]
    rw [List.range_succ, List.map_append]
    simp only [List.map_cons, List.map_nil, List.getLastD_concat, List.take_length,
      levClassic_reverse_reverse]
  unfold LevenshteinDistance
  by_cases h : s1.length > s2.length
  · simp only [if_pos h]
    exact (key s2 s1).trans (levClassic_comm s2 s1)
  · simp only [if_neg h]
    exact key s1 s2

/-! ### det_curve: cumulative sums are monotone -/

theorem cumsum_cons (x : ℚ) (xs : List ℚ) :
    cumsum (x :: xs) = x :: (cumsum xs).map (fun t => x + t) := rfl

theorem cumsum_head (x : ℚ) (xs : List ℚ) :
    (cumsum (x :: xs)).head? = some x := rfl

theorem cumsum_chain_mono : ∀ (l : List ℚ), (∀ a ∈ l, 0 ≤ a) →
    List.Chain' (fun a b => a ≤ b) (cumsum l)
  | [], _ => List.chain'_nil
  | x :: xs, h => by
    rw [cumsum_cons, List.chain'_cons']
    constructor
    · intro y hy
      rw [List.head?_map] at hy
      cases hxs : xs with
      | nil => simp [cumsum, hxs] at hy
      | cons z zs =>
        rw [hxs, cumsum_head] at hy
        simp only [Option.map_some', Option.mem_def, Option.some.injEq] at hy
        have hz : (0 : ℚ) ≤ z := h z (by simp [hxs])
        linarith [hy]
    · refine List.chain'_map_of_chain' _ ?_ (cumsum_chain_mono xs (fun a ha => h a (List.mem_cons_of_mem _ ha)))
      intro a b hab
      linarith

theorem cumsum_chain_slope : ∀ (l : List ℚ), (∀ a ∈ l, a ≤ 1) →
    List.Chain' (fun a b => b ≤ a + 1) (cumsum l)
  | [], _ => List.chain'_nil
  | x :: xs, h => by
    rw [cumsum_cons, List.chain'_cons']
    constructor
    · intro y hy
      rw [List.head?_map] at hy
      cases hxs : xs with
      | nil => simp [cumsum, hxs] at hy
      | cons z zs =>
        rw [hxs, cumsum_head] at hy
        simp only [Option.map_some', Option.mem_def, Option.some.injEq] at hy
        have hz : z ≤ 1 := h z (by simp [hxs])
        linarith [hy]
    · refine List.chain'_map_of_chain' _ ?_ (cumsum_chain_slope xs (fun a ha => h a (List.mem_cons_of_mem _ ha)))
      intro a b hab
      linarith

theorem chain'_enumFrom {R : ℚ → ℚ → Prop} :
    ∀ (l : List ℚ) (n : ℕ), List.Chain' R l →
      List.Chain' (fun p q : ℕ × ℚ => q.1 = p.1 + 1 ∧ R p.2 q.2) (l.enumFrom n)
  | [], _, _ => List.chain'_nil
  | x :: xs, n, h => by
    rw [List.enumFrom, List.chain'_cons']
    constructor
    · intro q hq
      cases hxs : xs with
      | nil => simp [hxs, List.enumFrom] at hq
      | cons z zs =>
        rw [hxs] at hq
        simp only [List.enumFrom, List.head?_cons, Option.mem_def, Option.some.injEq] at hq
        subst hq
        exact ⟨rfl, (List.chain'_cons.mp (by rw [hxs] at h; exact h)).1⟩
    · exact chain'_enumFrom xs (n + 1) h.tail


theorem list_getD_mem_or {β : Type} (l : List β) (k : ℕ) (d : β) :
    l.getD k d ∈ l ∨ l.getD k d = d := by
  by_cases h : k < l.length
  · left
    rw [List.getD_eq_getElem l d h]
    exact List.getElem_mem h
  · right
    exact List.getD_eq_default l d (le_of_not_lt h)

theorem det_curve_decomp (ts fs : List ℚ) :
    ∃ L : List ℚ, (∀ a ∈ L, 0 ≤ a ∧ a ≤ 1) ∧
      (det_curve ts fs).Pmiss = (cumsum L).map (fun t => t / (ts.length : ℚ)) ∧
      (det_curve ts fs).Pfa =
        ((cumsum L).enum.map (fun p => (fs.length : ℚ) - (((p.1 : ℚ) + 1) - p.2))).map
          (fun t => t / (fs.length : ℚ)) := by
  refine ⟨_, ?_, rfl, rfl⟩
  intro a ha
  obtain ⟨q, hq, rfl⟩ := List.mem_map.mp ha
  obtain ⟨k, _, rfl⟩ := List.mem_map.mp hq
  rcases list_getD_mem_or (List.map (fun s => ((s:ℚ), (0:ℚ))) fs ++ List.map (fun s => ((s:ℚ), (1:ℚ))) ts) k ((0:ℚ), (0:ℚ)) with h | h
  · rcases List.mem_append.mp h with h2 | h2 <;> obtain ⟨s, _, hs⟩ := List.mem_map.mp h2 <;>
      rw [← hs] <;> norm_num
  · rw [h]
    norm_num

/-- C4: for every pair of non-empty true-score and false-score arrays,
the `Pmiss` array returned by `det_curve` is non-decreasing and the
`Pfa` array is non-increasing along the sorted index order. -/
theorem claim_C4_det_curve_monotone (ts fs : List ℚ) (ht : ts ≠ []) (hf : fs ≠ []) :
    List.Chain' (fun a b => a ≤ b) (det_curve ts fs).Pmiss ∧
    List.Chain' (fun a b => b ≤ a) (det_curve ts fs).Pfa := by
  have hc1 : (0 : ℚ) < (ts.length : ℚ) := by
    have := List.length_pos.mpr ht
    exact_mod_cast this
  have hc2 : (0 : ℚ) < (fs.length : ℚ) := by
    have := List.length_pos.mpr hf
    exact_mod_cast this
  obtain ⟨L, hL, h1, h2⟩ := det_curve_decomp ts fs
  rw [h1, h2]
  constructor
  · exact List.chain'_map_of_chain' _
      (fun a b hab => (div_le_div_iff_of_pos_right hc1).mpr hab)
      (cumsum_chain_mono L (fun a ha => (hL a ha).1))
  · have henum := chain'_enumFrom (cumsum L) 0
      (cumsum_chain_slope L (fun a ha => (hL a ha).2))
    have hmid := List.chain'_map_of_chain'
      (fun p : ℕ × ℚ => (fs.length : ℚ) - (((p.1 : ℚ) + 1) - p.2))
      (S := fun a b : ℚ => b ≤ a)
      (fun p q hpq => by
        obtain ⟨hq1, hq2⟩ := hpq
        dsimp only
        rw [hq1]
        push_cast
        linarith) henum
    exact List.chain'_map_of_chain' (fun t : ℚ => t / (fs.length : ℚ))
      (S := fun a b : ℚ => b ≤ a)
      (fun a b hab => (div_le_div_iff_of_pos_right hc2).mpr hab) hmid


/-- C1: evaluation of `det_curve` at `true_scores = [2]`,
`false_scores = [0, 1]`.  `Pmiss` and `Pfa` do have length
`n_true + n_false = 3`, but the returned thresholds are
`scores[0, :] = [0, 0]` — the first row (score and label) of the sorted
`3 × 2` score array — of length 2, not the 3 sorted score values
`[0, 1, 2]` promised by the claim and by the function's own docstring
(`thresholds : array, shape = [n_samples], increasing score values`):
the source says `scores[0, :]` where its documentation requires
`scores[:, 0]`. -/
theorem claim_C1_det_curve_threshold_bug :
    (det_curve [2] [0, 1]).Pmiss.length = 3 ∧
    (det_curve [2] [0, 1]).Pfa.length = 3 ∧
    (det_curve [2] [0, 1]).threshold = [0, 0] := by
  norm_num [det_curve, argsortStable, sortPairs, insertPair, argLe, cumsum, List.enum]

/-- C8: `LevenshteinDistance` computes the classic edit distance — it
agrees with the textbook recursion `levClassic` on all inputs — so
`LevenshteinDistance("kitten", "sitting") = 3`; and `LER` divides each
pair's distance by the reference length and averages:
`LER([["a","b","c"]], [["a","b","c"]]) = 0` and
`LER([["a","b","c"]], [["a","x","c"]]) = 1/3`. -/
theorem claim_C8_levenshtein_ler :
    (∀ (s1 s2 : List Char), LevenshteinDistance s1 s2 = levClassic s1 s2) ∧
    LevenshteinDistance "kitten".toList "sitting".toList = 3 ∧
    LER [[Char.ofNat 97, Char.ofNat 98, Char.ofNat 99]]
        [[Char.ofNat 97, Char.ofNat 98, Char.ofNat 99]] = 0 ∧
    LER [[Char.ofNat 97, Char.ofNat 98, Char.ofNat 99]]
        [[Char.ofNat 97, Char.ofNat 120, Char.ofNat 99]] = 1 / 3 := by
  refine ⟨fun s1 s2 => LevenshteinDistance_eq_levClassic s1 s2, by decide, ?_, ?_⟩
  · have h : LevenshteinDistance [Char.ofNat 97, Char.ofNat 98, Char.ofNat 99]
        [Char.ofNat 97, Char.ofNat 98, Char.ofNat 99] = 0 := by decide
    simp [LER, h]
  · have h : LevenshteinDistance [Char.ofNat 97, Char.ofNat 98, Char.ofNat 99]
        [Char.ofNat 97, Char.ofNat 120, Char.ofNat 99] = 1 := by decide
    simp [LER, h]

/-- Witness for C4 at `true_scores = [1]`, `false_scores = [0, 1]`. -/
theorem claim_C4_det_curve_monotone_witness :
    (([(1 : ℚ)] ≠ []) ∧ ([(0 : ℚ), 1] ≠ [])) ∧
    (List.Chain' (fun a b => a ≤ b) (det_curve [1] [0, 1]).Pmiss ∧
     List.Chain' (fun a b => b ≤ a) (det_curve [1] [0, 1]).Pfa) :=
  ⟨⟨by decide, by decide⟩,
    claim_C4_det_curve_monotone [1] [0, 1] (by decide) (by decide)⟩

/-! ### PLDA state-machine claims -/

/-- C6: on a fresh instance (`_feat_dim` unset), a first call to
`initialize` with `X.shape[1] ≤ num_phi` raises the dimension error,
and the model never reaches the Initialized state: `Sigma_`, `Phi_`,
`Sb_`, `St_` are left exactly as they were (unallocated on a fresh
instance), even though `_feat_dim`/`_labels` are assigned before the
check fires. -/
theorem claim_C6_initialize_dimension_error (p : PLDAState) (X : List (List ℚ))
    (labels : List ℕ) (hfresh : p.feat_dim = none) (hdim : ncolsL X ≤ p.num_phi) :
    ∃ p1, p.initialize X labels =
        Except.error ("RuntimeError: feat_dim must be greater than num_phi", p1) ∧
      p1.Sigma_ = p.Sigma_ ∧ p1.Phi_ = p.Phi_ ∧ p1.Sb_ = p.Sb_ ∧ p1.St_ = p.St_ := by
  refine ⟨({ p with feat_dim := some (ncolsL X), labels := if p.labels = none then some labels else p.labels } : PLDAState), ?_, rfl, rfl, rfl, rfl⟩
  unfold PLDAState.initialize
  rw [hfresh]
  simp only [if_pos hdim]

/-- Witness for C6: a fresh `num_phi = 2` instance fed a 2-column `X`. -/
theorem claim_C6_initialize_dimension_error_witness :
    (plda0.feat_dim = none ∧ ncolsL [[(1 : ℚ), 1]] ≤ plda0.num_phi) ∧
    (∃ p1, plda0.initialize [[(1 : ℚ), 1]] [0] =
        Except.error ("RuntimeError: feat_dim must be greater than num_phi", p1) ∧
      p1.Sigma_ = plda0.Sigma_ ∧ p1.Phi_ = plda0.Phi_ ∧
      p1.Sb_ = plda0.Sb_ ∧ p1.St_ = plda0.St_) :=
  ⟨⟨rfl, by decide⟩,
    claim_C6_initialize_dimension_error plda0 [[(1 : ℚ), 1]] [0] rfl (by decide)⟩

/-- C7: on any instance that is not fitted (the four cache attributes
`Lambda_`, `Uk_`, `Q_hat_`, `X_model_` are not all present),
`transform`, `predict_log_proba` and `__getstate__` all raise the
not-fitted error, for every input. -/
theorem claim_C7_not_fitted_errors (p : PLDAState) (X : List (List ℚ))
    (Xm : Option (List (List ℚ))) (h : p.is_fitted = false) :
    p.transform X = Except.error "RuntimeError: This model has not been fitted!" ∧
    p.predict_log_proba X Xm = Except.error "RuntimeError: This model has not been fitted!" ∧
    p.getstate = Except.error "RuntimeError: The PLDA have not been fitted, nothing to pickle!" := by
  unfold PLDAState.transform PLDAState.predict_log_proba PLDAState.getstate
  rw [h]
  simp

/-- Witness for C7 on the fresh instance. -/
theorem claim_C7_not_fitted_errors_witness :
    plda0.is_fitted = false ∧
    (plda0.transform [] = Except.error "RuntimeError: This model has not been fitted!" ∧
    plda0.predict_log_proba [] none = Except.error "RuntimeError: This model has not been fitted!" ∧
    plda0.getstate = Except.error "RuntimeError: The PLDA have not been fitted, nothing to pickle!") :=
  ⟨rfl, claim_C7_not_fitted_errors plda0 [] none rfl⟩

/-- C2 counterexample: `__setstate__` accepts — without any error — a
bundle whose `Phi` shape (3 × 2) disagrees with its stored
`feat_dim = 5` and `num_phi = 4`, refuting the claim that
deserialization rejects inconsistent bundles. -/
theorem claim_C2_setstate_counterexample :
    PLDAState.setstate plda0 badBundle = Except.ok badBundle ∧
    ¬ bundleConsistent badBundle :=
  ⟨rfl, by decide⟩

/-- C2 amended: `__setstate__` performs no validation at all — every
16-field bundle, the inconsistent ones included, is accepted and its
fields are assigned to the instance positionally. -/
theorem claim_C2_setstate_amended (p s : PLDAState) (_h : ¬ bundleConsistent s) :
    p.setstate s = Except.ok s := rfl

/-- Witness for the amended C2 at the concrete inconsistent bundle. -/
theorem claim_C2_setstate_amended_witness :
    ¬ bundleConsistent badBundle ∧
    PLDAState.setstate plda0 badBundle = Except.ok badBundle :=
  ⟨by decide, claim_C2_setstate_amended plda0 badBundle (by decide)⟩

theorem npSolve_spec {k m : ℕ} (A : Matrix (Fin k) (Fin k) ℚ)
    (B : Matrix (Fin k) (Fin m) ℚ) (h : A.det ≠ 0) : A * npSolve A B = B := by
  unfold npSolve
  rw [Matrix.mul_smul, ← Matrix.mul_assoc, Matrix.mul_adjugate, Matrix.smul_mul,
    Matrix.one_mul, smul_smul, inv_mul_cancel₀ h, one_smul]

/-- C3 amended: the maximization step solves the **transposed** system —
it sets `Phi = solve(Eyyᵀ, EyᵀF)ᵀ`, i.e. `Phiᵀ` is the unique `Z` with
`Eyyᵀ·Z = EyᵀF` (which coincides with the claim's `solve(Eyy, EyᵀF)ᵀ`
exactly when `Eyy` is symmetric) — and sets
`Sigma = (XᵀX − Phi·(EyᵀF)) / num_samples` with the freshly updated
`Phi`, `num_samples` being the number of rows of `X`. -/
theorem claim_C3_maximization_amended {n d c p : ℕ} (X : Matrix (Fin n) (Fin d) ℚ)
    (X_sqr : Matrix (Fin d) (Fin d) ℚ) (F : Matrix (Fin c) (Fin d) ℚ)
    (Ey : Matrix (Fin c) (Fin p) ℚ) (Eyy : Matrix (Fin p) (Fin p) ℚ)
    (hX : X_sqr = Xᵀ * X) (hdet : (Eyyᵀ).det ≠ 0) (hn : 0 < n) :
    ∃ Phi Sigma, maximization_plda X X_sqr F Ey Eyy = Except.ok (Phi, Sigma) ∧
      Eyyᵀ * Phiᵀ = Eyᵀ * F ∧
      Sigma = ((n : ℚ))⁻¹ • (Xᵀ * X - Phi * (Eyᵀ * F)) := by
  have hres : maximization_plda X X_sqr F Ey Eyy = Except.ok
      ((npSolve Eyyᵀ (Eyᵀ * F))ᵀ,
        ((n : ℚ))⁻¹ • (X_sqr - (npSolve Eyyᵀ (Eyᵀ * F))ᵀ * (Eyᵀ * F))) := by
    unfold maximization_plda
    rw [if_neg hdet, if_neg (Nat.pos_iff_ne_zero.mp hn)]
  refine ⟨_, _, hres, ?_, ?_⟩
  · rw [Matrix.transpose_transpose]
    exact npSolve_spec _ _ hdet
  · rw [hX]


/-- C3 counterexample: at `Eyy = [[1,1],[0,1]]` (not symmetric),
`Ey = F = I₂`, `X` a 1×2 zero matrix, the code returns
`Phi = solve(Eyyᵀ, EyᵀF)ᵀ = [[1,-1],[0,1]]`, while the claim's formula
`solve(Eyy, EyᵀF)ᵀ` evaluates to `[[1,0],[-1,1]]`; the two differ, so
the claim as stated is false. -/
theorem claim_C3_maximization_counterexample :
    (maximization_plda (0 : Matrix (Fin 1) (Fin 2) ℚ) 0 (1 : Matrix (Fin 2) (Fin 2) ℚ) 1
        !![1, 1; 0, 1]).map Prod.fst = Except.ok !![1, -1; 0, 1] ∧
    (npSolve !![1, 1; 0, 1] ((1 : Matrix (Fin 2) (Fin 2) ℚ)ᵀ * 1))ᵀ = !![1, 0; -1, 1] ∧
    (!![1, -1; 0, 1] : Matrix (Fin 2) (Fin 2) ℚ) ≠ !![1, 0; -1, 1] := by
  have ht : (!![1, 1; 0, 1] : Matrix (Fin 2) (Fin 2) ℚ)ᵀ = !![1, 0; 1, 1] := by
    ext i j
    fin_cases i <;> fin_cases j <;> rfl
  have hdet : ((!![1, 0; 1, 1] : Matrix (Fin 2) (Fin 2) ℚ)).det ≠ 0 := by
    norm_num [Matrix.det_fin_two]
  refine ⟨?_, ?_, ?_⟩
  · unfold maximization_plda
    rw [ht, if_neg hdet, if_neg (one_ne_zero)]
    simp only [Except.map]
    congr 1
    ext i j
    fin_cases i <;> fin_cases j <;>
      simp [npSolve, Matrix.transpose_one, Matrix.mul_one,
        Matrix.adjugate_fin_two, Matrix.det_fin_two,
        Matrix.transpose_apply, Matrix.smul_apply, smul_eq_mul]
  · ext i j
    fin_cases i <;> fin_cases j <;>
      simp [npSolve, Matrix.transpose_one, Matrix.mul_one,
        Matrix.adjugate_fin_two, Matrix.det_fin_two,
        Matrix.transpose_apply, Matrix.smul_apply, smul_eq_mul]
  · intro hcontra
    have h01 := congrFun (congrFun hcontra 0) 1
    norm_num at h01

/-- Witness for the amended C3 at 1×1 matrices. -/
theorem claim_C3_maximization_amended_witness :
    ((0 : Matrix (Fin 1) (Fin 1) ℚ) = (0 : Matrix (Fin 1) (Fin 1) ℚ)ᵀ * 0 ∧
     ((1 : Matrix (Fin 1) (Fin 1) ℚ)ᵀ).det ≠ 0 ∧ 0 < 1) ∧
    (∃ Phi Sigma, maximization_plda (0 : Matrix (Fin 1) (Fin 1) ℚ) 0
        (0 : Matrix (Fin 1) (Fin 1) ℚ) 0 1 = Except.ok (Phi, Sigma) ∧
      (1 : Matrix (Fin 1) (Fin 1) ℚ)ᵀ * Phiᵀ = (0 : Matrix (Fin 1) (Fin 1) ℚ)ᵀ * 0 ∧
      Sigma = (((1 : ℕ) : ℚ))⁻¹ • ((0 : Matrix (Fin 1) (Fin 1) ℚ)ᵀ * 0 -
        Phi * ((0 : Matrix (Fin 1) (Fin 1) ℚ)ᵀ * 0))) :=
  ⟨⟨by simp, by simp, by decide⟩,
    claim_C3_maximization_amended (0 : Matrix (Fin 1) (Fin 1) ℚ) 0 0 0 1 (by simp) (by simp) (by decide)⟩

theorem foldl_max_init_le (y : List ℕ) : ∀ (a b : ℕ), a ≤ b → (∀ v ∈ y, v ≤ b) →
    y.foldl max a ≤ b := by
  induction y with
  | nil => intro a b hab _; simpa using hab
  | cons x xs ih =>
    intro a b hab hall
    simp only [List.foldl_cons]
    exact ih (max a x) b (max_le hab (hall x (List.mem_cons_self x xs)))
      (fun v hv => hall v (List.mem_cons_of_mem _ hv))

theorem init_le_foldl_max : ∀ (y : List ℕ) (a : ℕ), a ≤ y.foldl max a
  | [], a => le_refl a
  | x :: xs, a => le_trans (le_max_left a x) (init_le_foldl_max xs (max a x))

theorem le_foldl_max : ∀ (y : List ℕ) (a v : ℕ), v ∈ y → v ≤ y.foldl max a
  | [], _, _, hv => absurd hv (List.not_mem_nil _)
  | x :: xs, a, v, hv => by
    simp only [List.foldl_cons]
    rcases List.mem_cons.mp hv with rfl | hv
    · exact le_trans (le_max_right a v) (init_le_foldl_max xs (max a v))
    · exact le_foldl_max xs (max a x) v hv

theorem mem_npUnique (y : List ℕ) (v : ℕ) : v ∈ npUnique y ↔ v ∈ y := by
  unfold npUnique
  rw [List.mem_filter]
  constructor
  · intro h
    have := h.2
    simpa using this
  · intro h
    refine ⟨?_, by simpa using h⟩
    rw [List.mem_range]
    exact Nat.lt_succ_of_le (le_foldl_max y 0 v h)


theorem buildF_foldlM_err (X : List (List ℚ)) (y : List ℕ) (feat_dim : ℕ) :
    ∀ (classes : List ℕ) (F : List (List ℚ)), (∃ clz ∈ classes, F.length ≤ clz) →
      classes.foldlM
        (fun F clz =>
          if clz < F.length then Except.ok (F.set clz (classRowSum X y clz feat_dim))
          else Except.error "IndexError: index is out of bounds for axis 0") F
      = Except.error "IndexError: index is out of bounds for axis 0"
  | [], F, h => by simp at h
  | c :: rest, F, h => by
    by_cases hc : c < F.length
    · simp only [List.foldlM_cons, if_pos hc]
      obtain ⟨clz, hmem, hge⟩ := h
      rcases List.mem_cons.mp hmem with rfl | hmem2
      · omega
      · have : ∃ clz ∈ rest, (F.set c (classRowSum X y c feat_dim)).length ≤ clz :=
          ⟨clz, hmem2, by simpa using hge⟩
        exact buildF_foldlM_err X y feat_dim rest _ this
    · simp only [List.foldlM_cons, if_neg hc]
      rfl

theorem buildF_foldlM_ok (X : List (List ℚ)) (y : List ℕ) (feat_dim : ℕ) :
    ∀ (classes : List ℕ) (F : List (List ℚ)), (∀ clz ∈ classes, clz < F.length) →
      ∃ F2, classes.foldlM
        (fun F clz =>
          if clz < F.length then Except.ok (F.set clz (classRowSum X y clz feat_dim))
          else Except.error "IndexError: index is out of bounds for axis 0") F
      = Except.ok F2
  | [], F, _ => ⟨F, rfl⟩
  | c :: rest, F, h => by
    have hc : c < F.length := h c (List.mem_cons_self c rest)
    simp only [List.foldlM_cons, if_pos hc]
    have hrest : ∀ clz ∈ rest, clz < (F.set c (classRowSum X y c feat_dim)).length := by
      intro clz hclz
      simpa using h clz (List.mem_cons_of_mem _ hclz)
    obtain ⟨F2, hF2⟩ := buildF_foldlM_ok X y feat_dim rest _ hrest
    exact ⟨F2, hF2⟩


theorem initialize_fresh_ok (p : PLDAState) (Xn : List (List ℚ)) (classes : List ℕ)
    (hfresh : p.feat_dim = none) (hlab : p.labels = none) (hphi : p.num_phi < ncolsL Xn) :
    ∃ p2, p.initialize Xn classes = Except.ok p2 ∧
      p2.labels = some classes ∧ p2.feat_dim = some (ncolsL Xn) := by
  unfold PLDAState.initialize
  rw [hfresh]
  simp [hlab, not_le.mpr hphi]


theorem npBincount_length_of_range (y : List ℕ) (K : ℕ)
    (hrange : npUnique y = List.range K) : (npBincount y).length = K := by
  unfold npBincount
  by_cases hy : y = []
  · subst hy
    have : K = 0 := by
      by_contra hne
      have h0 : 0 ∈ List.range K := List.mem_range.mpr (Nat.pos_of_ne_zero hne)
      rw [← hrange] at h0
      exact absurd ((mem_npUnique [] 0).mp h0) (List.not_mem_nil 0)
    simp [this]
  · rw [if_neg hy]
    simp only [List.length_map, List.length_range]
    have hKpos : 0 < K := by
      obtain ⟨v, hv⟩ := List.exists_mem_of_ne_nil y hy
      have hvu : v ∈ List.range K := by
        rw [← hrange]
        exact (mem_npUnique y v).mpr hv
      rw [List.mem_range] at hvu
      omega
    have hub : y.foldl max 0 ≤ K - 1 := by
      apply foldl_max_init_le y 0 _ (Nat.zero_le _)
      intro v hv
      have hvr : v ∈ List.range K := by
        rw [← hrange]
        exact (mem_npUnique y v).mpr hv
      rw [List.mem_range] at hvr
      omega
    have hlb : K - 1 ≤ y.foldl max 0 := by
      have hmem : K - 1 ∈ npUnique y := by
        rw [hrange, List.mem_range]
        omega
      exact le_foldl_max y 0 _ ((mem_npUnique y _).mp hmem)
    omega

/-- C9: `fit` allocates `F` with one row per distinct label and indexes
it by the raw label value, and builds the class counts by
`np.bincount(y)`.  On a fresh, correctly configured instance:
(a) whenever some label is ≥ the number of distinct labels, the prelude
of `fit` (everything before the EM loop) fails with the out-of-bounds
IndexError — so the first EM iteration is never reached; and
(b) when the distinct labels are exactly `0..K−1`, the prelude succeeds
and `bincount` has exactly `K = num_classes` entries. -/
theorem claim_C9_fit_label_indexing (p : PLDAState) (X : List (List ℚ)) (y : List ℕ)
    (hfresh : p.feat_dim = none) (hlab : p.labels = none)
    (hlen : X.length = y.length) (hphi : p.num_phi < ncolsL (p.normalizer X)) :
    ((∃ v ∈ y, (npUnique y).length ≤ v) →
      ∃ p1, p.fitPrelude X y =
        Except.error ("IndexError: index is out of bounds for axis 0", p1)) ∧
    (npUnique y = List.range (npUnique y).length →
      (∃ out, p.fitPrelude X y = Except.ok out) ∧
      (npBincount y).length = (npUnique y).length) := by
  obtain ⟨p2, hinit, hplab, hpfeat⟩ :=
    initialize_fresh_ok p (p.normalizer X) (npUnique y) hfresh hlab hphi
  constructor
  · rintro ⟨v, hv, hKv⟩
    have hbF : buildF ((p2.labels.getD []).length) (p2.feat_dim.getD 0)
        (p.normalizer X) y (npUnique y) =
        Except.error "IndexError: index is out of bounds for axis 0" := by
      unfold buildF
      apply buildF_foldlM_err
      refine ⟨v, (mem_npUnique y v).mpr hv, ?_⟩
      rw [hplab]
      simpa [zerosM] using hKv
    refine ⟨p2, ?_⟩
    unfold PLDAState.fitPrelude
    rw [if_neg (fun h => h hlen)]
    simp only [hinit, hbF]
  · intro hrange
    have hok : ∃ F2, buildF ((p2.labels.getD []).length) (p2.feat_dim.getD 0)
        (p.normalizer X) y (npUnique y) = Except.ok F2 := by
      unfold buildF
      apply buildF_foldlM_ok
      intro clz hclz
      rw [hplab]
      rw [hrange] at hclz
      rw [List.mem_range] at hclz
      simpa [zerosM] using hclz
    obtain ⟨F2, hF2⟩ := hok
    constructor
    · refine ⟨(p2, F2, matMulL (transposeL (p.normalizer X)) (p.normalizer X), npBincount y), ?_⟩
      unfold PLDAState.fitPrelude
      rw [if_neg (fun h => h hlen)]
      simp only [hinit, hF2]
    · exact npBincount_length_of_range y (npUnique y).length hrange


/-- Witness for C9: fresh `num_phi = 2` instance, `X = [[1,1,1]]`
(3 features), `y = [5]` — one distinct label but raw value 5. -/
theorem claim_C9_fit_label_indexing_witness :
    (plda0.feat_dim = none ∧ plda0.labels = none ∧
     ([[(1 : ℚ), 1, 1]] : List (List ℚ)).length = ([5] : List ℕ).length ∧
     plda0.num_phi < ncolsL (plda0.normalizer [[(1 : ℚ), 1, 1]])) ∧
    (((∃ v ∈ ([5] : List ℕ), (npUnique [5]).length ≤ v) →
      ∃ p1, plda0.fitPrelude [[(1 : ℚ), 1, 1]] [5] =
        Except.error ("IndexError: index is out of bounds for axis 0", p1)) ∧
    (npUnique [5] = List.range (npUnique [5]).length →
      (∃ out, plda0.fitPrelude [[(1 : ℚ), 1, 1]] [5] = Except.ok out) ∧
      (npBincount [5]).length = (npUnique [5]).length)) :=
  ⟨⟨rfl, rfl, rfl, by decide⟩,
    claim_C9_fit_label_indexing plda0 [[(1 : ℚ), 1, 1]] [5] rfl rfl rfl (by decide)⟩

theorem cavg_inner_fold (y_llr : List (List ℝ)) (y_true : List ℕ) (thresh : ℝ)
    (i : ℕ) (N : ℝ) :
    ∀ (cluster : List ℕ) (acc : ℝ × ℝ),
      cluster.foldl (fun acc2 lang_j =>
        if i = lang_j then
          (acc2.1, acc2.2 + (cavgCntBelow y_llr y_true i i thresh : ℝ) / N)
        else
          (acc2.1 + (cavgCntAtLeast y_llr y_true i lang_j thresh : ℝ) / N, acc2.2)) acc
      = (acc.1 + ((cluster.filter (fun j => j ≠ i)).map
            (fun j => (cavgCntAtLeast y_llr y_true i j thresh : ℝ) / N)).sum,
         acc.2 + (cluster.count i : ℝ) *
            ((cavgCntBelow y_llr y_true i i thresh : ℝ) / N))
  | [], acc => by simp
  | c :: rest, acc => by
    by_cases hic : i = c
    · subst hic
      rw [List.foldl_cons, if_pos rfl, cavg_inner_fold y_llr y_true thresh i N rest _]
      have hfilter : (i :: rest).filter (fun j => j ≠ i) = rest.filter (fun j => j ≠ i) := by
        simp [List.filter_cons]
      have hcount : ((i :: rest).count i : ℝ) = (rest.count i : ℝ) + 1 := by
        rw [List.count_cons_self]
        push_cast
        ring
      rw [hfilter, hcount]
      rw [Prod.mk.injEq]
      constructor <;> ring
    · rw [List.foldl_cons, if_neg hic, cavg_inner_fold y_llr y_true thresh i N rest _]
      have hfilter : (c :: rest).filter (fun j => j ≠ i) = c :: rest.filter (fun j => j ≠ i) := by
        simp [List.filter_cons, Ne.symm hic]
      have hcount : (c :: rest).count i = rest.count i := by
        simp [List.count_cons, Ne.symm hic]
      rw [hfilter, hcount, List.map_cons, List.sum_cons]
      rw [Prod.mk.injEq]
      constructor <;> ring


theorem cavg_outer_fold (y_llr : List (List ℝ)) (y_true : List ℕ) (thresh : ℝ)
    (cluster : List ℕ) :
    ∀ (outer : List ℕ) (acc : ℝ × ℝ),
      outer.foldl (fun acc1 lang_i =>
        cluster.foldl (fun acc2 lang_j =>
          if lang_i = lang_j then
            (acc2.1, acc2.2 + (cavgCntBelow y_llr y_true lang_i lang_i thresh : ℝ) /
              max (cavgN y_true lang_i : ℝ) 1)
          else
            (acc2.1 + (cavgCntAtLeast y_llr y_true lang_i lang_j thresh : ℝ) /
              max (cavgN y_true lang_i : ℝ) 1, acc2.2)) acc1) acc
      = (acc.1 + (outer.map (fun i =>
            ((cluster.filter (fun j => j ≠ i)).map (fun j =>
              (cavgCntAtLeast y_llr y_true i j thresh : ℝ) /
                max (cavgN y_true i : ℝ) 1)).sum)).sum,
         acc.2 + (outer.map (fun i => (cluster.count i : ℝ) *
            ((cavgCntBelow y_llr y_true i i thresh : ℝ) /
              max (cavgN y_true i : ℝ) 1))).sum)
  | [], acc => by simp
  | i :: rest, acc => by
    rw [List.foldl_cons, cavg_inner_fold y_llr y_true thresh i _ cluster acc,
      cavg_outer_fold y_llr y_true thresh cluster rest _]
    rw [Prod.mk.injEq]
    simp only [List.map_cons, List.sum_cons]
    constructor <;> ring

theorem cavgLoops_eq (y_llr : List (List ℝ)) (y_true : List ℕ) (thresh : ℝ)
    (cluster : List ℕ) (hnd : cluster.Nodup) :
    cavgLoops y_llr y_true thresh cluster
      = ((cluster.map (fun i =>
            ((cluster.filter (fun j => j ≠ i)).map (fun j =>
              (cavgCntAtLeast y_llr y_true i j thresh : ℝ) /
                max (cavgN y_true i : ℝ) 1)).sum)).sum,
         (cluster.map (fun i =>
            (cavgCntBelow y_llr y_true i i thresh : ℝ) /
              max (cavgN y_true i : ℝ) 1)).sum) := by
  unfold cavgLoops
  rw [cavg_outer_fold y_llr y_true thresh cluster cluster (0, 0)]
  rw [Prod.mk.injEq]
  constructor
  · simp
  · rw [zero_add]
    congr 1
    apply List.map_congr_left
    intro i hi
    rw [List.count_eq_one_of_mem hnd hi]
    push_cast
    ring


theorem mapM_ok_of_forall {α β : Type} (f : α → Except String β) (g : α → β) :
    ∀ (l : List α), (∀ x ∈ l, f x = Except.ok (g x)) → l.mapM f = Except.ok (l.map g)
  | [], _ => rfl
  | x :: xs, h => by
    rw [List.mapM_cons, h x (List.mem_cons_self x xs),
      mapM_ok_of_forall f g xs (fun z hz => h z (List.mem_cons_of_mem _ hz))]
    rfl

theorem mapM_error_of_mem {α β : Type} (f : α → Except String β) :
    ∀ (l : List α), (∃ x ∈ l, ∃ msg, f x = Except.error msg) →
      ∃ msg, l.mapM f = Except.error msg
  | [], h => by simp at h
  | x :: xs, h => by
    rw [List.mapM_cons]
    obtain ⟨z, hz, msg, hmsg⟩ := h
    rcases List.mem_cons.mp hz with rfl | hz2
    · exact ⟨msg, by rw [hmsg]; rfl⟩
    · cases hfx : f x with
      | error m => exact ⟨m, rfl⟩
      | ok b =>
        obtain ⟨m2, hm2⟩ := mapM_error_of_mem f xs ⟨z, hz2, msg, hmsg⟩
        refine ⟨m2, ?_⟩
        rw [hm2]
        rfl

theorem cavgClusterCost_ok (y_llr : List (List ℝ)) (y_true : List ℕ)
    (thresh Ptar Cfa Cmiss : ℝ) (cluster : List ℕ)
    (hlen : 2 ≤ cluster.length) (hnd : cluster.Nodup) :
    cavgClusterCost y_llr y_true thresh Ptar Cfa Cmiss cluster = Except.ok
      (100 * (Cmiss * Ptar * (cluster.map (fun i =>
          (cavgCntBelow y_llr y_true i i thresh : ℝ) /
            max (cavgN y_true i : ℝ) 1)).sum +
        Cfa * (1 - Ptar) * (cluster.map (fun i =>
          ((cluster.filter (fun j => j ≠ i)).map (fun j =>
            (cavgCntAtLeast y_llr y_true i j thresh : ℝ) /
              max (cavgN y_true i : ℝ) 1)).sum)).sum / ((cluster.length : ℝ) - 1))
        / (cluster.length : ℝ)) := by
  unfold cavgClusterCost
  rw [if_neg (by omega)]
  rw [cavgLoops_eq y_llr y_true thresh cluster hnd]


/-- C5: the numpy path of `Cavg` equals the spec formula: threshold
`log(Cfa/Cmiss) − log(Ptar/(1−Ptar))`; per class the strictly-below
misses and at-or-above cross-class false alarms, each divided by the
class sample count floored to 1; per cluster of size `L` the cost
`100·(Cmiss·Ptar·Σmiss + Cfa·(1−Ptar)·Σfa/(L−1))/L`; result is the
per-cluster cost vector and its arithmetic mean — for every partition
whose clusters hold at least two distinct classes. -/
theorem claim_C5_cavg_formula (y_llr : List (List ℝ)) (y_true : List ℕ) (clusters : List (List ℕ))
    (Ptar Cfa Cmiss : ℝ) (hc : ∀ c ∈ clusters, 2 ≤ c.length ∧ c.Nodup) :
    Cavg_np y_llr y_true clusters Ptar Cfa Cmiss =
      Except.ok (Cavg_spec y_llr y_true clusters Ptar Cfa Cmiss) := by
  unfold Cavg_np Cavg_spec
  have hmapM := mapM_ok_of_forall
    (cavgClusterCost y_llr y_true
      (Real.log (Cfa / Cmiss) - Real.log (Ptar / (1 - Ptar))) Ptar Cfa Cmiss)
    (fun cluster =>
      100 * (Cmiss * Ptar * (cluster.map (fun i =>
          (cavgCntBelow y_llr y_true i i
            (Real.log (Cfa / Cmiss) - Real.log (Ptar / (1 - Ptar))) : ℝ) /
            max (cavgN y_true i : ℝ) 1)).sum +
        Cfa * (1 - Ptar) * (cluster.map (fun i =>
          ((cluster.filter (fun j => j ≠ i)).map (fun j =>
            (cavgCntAtLeast y_llr y_true i j
              (Real.log (Cfa / Cmiss) - Real.log (Ptar / (1 - Ptar))) : ℝ) /
              max (cavgN y_true i : ℝ) 1)).sum)).sum / ((cluster.length : ℝ) - 1))
        / (cluster.length : ℝ))
    clusters
    (fun cluster hcl =>
      cavgClusterCost_ok y_llr y_true _ Ptar Cfa Cmiss cluster
        (hc cluster hcl).1 (hc cluster hcl).2)
  simp only [hmapM]
  rfl

/-- C10: any cluster of size exactly 1 (in particular the default
single all-classes cluster `[range(1)]` when the score matrix has one
column) makes the numpy path of `Cavg` raise `ZeroDivisionError` from
`fa / (L - 1)` with `L = 1`, instead of returning a cost. -/
theorem claim_C10_cavg_singleton_cluster (y_llr : List (List ℝ)) (y_true : List ℕ) (clusters : List (List ℕ))
    (Ptar Cfa Cmiss : ℝ) (h1 : ∃ c ∈ clusters, c.length = 1) :
    ∃ msg, Cavg_np y_llr y_true clusters Ptar Cfa Cmiss = Except.error msg := by
  obtain ⟨c, hc, hlen⟩ := h1
  have herr : ∃ msg, cavgClusterCost y_llr y_true
      (Real.log (Cfa / Cmiss) - Real.log (Ptar / (1 - Ptar))) Ptar Cfa Cmiss c
      = Except.error msg := by
    refine ⟨"ZeroDivisionError: division by zero", ?_⟩
    unfold cavgClusterCost
    rw [if_pos (Or.inl hlen)]
  obtain ⟨msg, hmsg⟩ := mapM_error_of_mem _ clusters ⟨c, hc, herr⟩
  refine ⟨msg, ?_⟩
  unfold Cavg_np
  simp only [hmsg]
  rfl


/-- Witness for C5 at a 1-sample, 2-class input with `Ptar = 1/2`,
`Cfa = Cmiss = 1`. -/
theorem claim_C5_cavg_formula_witness :
    (∀ c ∈ ([[0, 1]] : List (List ℕ)), 2 ≤ c.length ∧ c.Nodup) ∧
    Cavg_np [[0, 0]] [0] [[0, 1]] (1 / 2 : ℝ) 1 1 =
      Except.ok (Cavg_spec [[0, 0]] [0] [[0, 1]] (1 / 2 : ℝ) 1 1) :=
  ⟨by decide, claim_C5_cavg_formula [[0, 0]] [0] [[0, 1]] (1 / 2 : ℝ) 1 1 (by decide)⟩

/-- Witness for C10 at the default single cluster for a one-column
score matrix. -/
theorem claim_C10_cavg_singleton_cluster_witness :
    (∃ c ∈ Cavg_default_clusters 1, c.length = 1) ∧
    ∃ msg, Cavg_np [[0]] [0] (Cavg_default_clusters 1) (1 / 2 : ℝ) 1 1 =
      Except.error msg :=
  ⟨by decide,
    claim_C10_cavg_singleton_cluster [[0]] [0] (Cavg_default_clusters 1) (1 / 2 : ℝ) 1 1
      (by decide)⟩

end Odin
